import Mathlib

/-!
Shallow embedding of the `vcm_logic` package (Value-Centered Maturity
assessment) and proofs about its scoring, recommendation and reporting
pipeline.

Modelling conventions:
* Python `float` scores are modelled as exact rationals (`ℚ`); every
  numeric literal appearing in the sources (`2`, `3`, `4`, `5.1`) is
  exactly representable, and the spec describes the values as reals.
* Python `dict` objects are modelled as insertion-ordered association
  lists (`List (String × _)`) with `dictInsert` mirroring `d[k] = v`
  (update in place, append when the key is new).  Read-only mappings
  that are merely consulted (`answers`, `pillar_scores`, `initiatives`
  in the report builder) are modelled as `String → Option _`.
* Fallible Python code is modelled with `Except PyError`; the
  constructors correspond to `KeyError(key)`, to
  `ValueError(f"Unknown option '{option}' for question {question.id}")`
  and to `ZeroDivisionError`.
-/

namespace VCM

/-- `Question` dataclass from `vcm_logic/questions.py`. -/
structure Question where
  id : String
  prompt : String
  options : List String
deriving DecidableEq

/-- `Pillar` dataclass from `vcm_logic/questions.py`. -/
structure Pillar where
  id : String
  name : String
  description : String
  questions : List Question
deriving DecidableEq

/-- `PillarScore` dataclass from `vcm_logic/scoring.py`; `average` is a
Python float, modelled as `ℚ`, and `responses` is a dict from question id
to integer score. -/
structure PillarScore where
  pillar_id : String
  average : ℚ
  responses : List (String × Int)
deriving DecidableEq

/-- The exceptions raised by the embedded code: `KeyError(key)` from
`answers[question.id]` and `pillar_scores[pillar.id]`,
`ValueError(f"Unknown option '{option}' for question {question.id}")`
from `_option_to_score` (the constructor carries the two values
interpolated into the message), and `ZeroDivisionError` from dividing by
`len(numeric_responses)`. -/
inductive PyError where
  | keyError (key : String)
  | valueErrorUnknownOption (option : String) (question_id : String)
  | zeroDivisionError
deriving DecidableEq

/-- Python dict assignment `d[k] = v` on an insertion-ordered association
list: replace the value in place if the key is present, append otherwise. -/
def dictInsert {α : Type} (k : String) (v : α) : List (String × α) → List (String × α)
  | [] => [(k, v)]
  | (k2, v2) :: rest => if k2 = k then (k, v) :: rest else (k2, v2) :: dictInsert k v rest

/-- Python `list.index` on a list of strings: the zero-based index of the
first occurrence, `none` when absent (where Python raises `ValueError`). -/
def pyIndex (x : String) : List String → Option Nat
  | [] => none
  | o :: rest => if o = x then some 0 else (pyIndex x rest).map (fun i => i + 1)

/-- `_option_to_score` from `vcm_logic/scoring.py`: the position of
`option` in `question.options` plus one, raising a `ValueError` naming the
option and the question id when the option is not found. -/
def _option_to_score (option : String) (question : Question) : Except PyError Int :=
  match pyIndex option question.options with
  | none => .error (.valueErrorUnknownOption option question.id)
  | some position => .ok ((position : Int) + 1)

/-- The inner loop of `score_responses`: build up `numeric_responses` over
the questions of one pillar, looking each question id up in `answers`
(`KeyError` when absent) and converting the answer with
`_option_to_score`. -/
def scoreQuestions (answers : String → Option String) :
    List Question → List (String × Int) → Except PyError (List (String × Int))
  | [], acc => .ok acc
  | question :: rest, acc =>
    match answers question.id with
    | none => .error (.keyError question.id)
    | some option =>
      match _option_to_score option question with
      | .error e => .error e
      | .ok s => scoreQuestions answers rest (dictInsert question.id s acc)

/-- `sum(numeric_responses.values()) / len(numeric_responses)`, raising
`ZeroDivisionError` when the dict is empty, exactly as Python `/` does. -/
def pillarAverage (numeric_responses : List (String × Int)) : Except PyError ℚ :=
  if numeric_responses.length = 0 then .error .zeroDivisionError
  else .ok (((numeric_responses.map (fun kv => kv.2)).sum : ℚ) / (numeric_responses.length : ℚ))

/-- The outer loop of `score_responses`: accumulate `pillar_scores` over
the pillars. -/
def scorePillars (answers : String → Option String) :
    List Pillar → List (String × PillarScore) → Except PyError (List (String × PillarScore))
  | [], acc => .ok acc
  | pillar :: rest, acc =>
    match scoreQuestions answers pillar.questions [] with
    | .error e => .error e
    | .ok numeric_responses =>
      match pillarAverage numeric_responses with
      | .error e => .error e
      | .ok average_score =>
        scorePillars answers rest
          (dictInsert pillar.id
            (PillarScore.mk pillar.id average_score numeric_responses) acc)

/-- `score_responses` from `vcm_logic/scoring.py`. -/
def score_responses (answers : String → Option String) (pillars : List Pillar) :
    Except PyError (List (String × PillarScore)) :=
  scorePillars answers pillars []

/-- `compute_maturity_level` from `vcm_logic/scoring.py`. -/
def compute_maturity_level (overall_score : ℚ) : String :=
  if overall_score < 2 then "Nascent"
  else if overall_score < 3 then "Emerging"
  else if overall_score < 4 then "Established"
  else "Leading"

/-- `overall_average` from `vcm_logic/scoring.py`. -/
def overall_average (pillar_scores : List (String × PillarScore)) : ℚ :=
  if pillar_scores.isEmpty then 0
  else ((pillar_scores.map (fun kv => kv.2.average)).sum) / (pillar_scores.length : ℚ)

/-- Rank of a maturity label in the order Nascent < Emerging <
Established < Leading, used to state monotonicity of
`compute_maturity_level`. -/
def levelRank (label : String) : ℕ :=
  if label = "Nascent" then 0
  else if label = "Emerging" then 1
  else if label = "Established" then 2
  else 3

/-- `BANDS` from `vcm_logic/initiatives.py`: half-open score bands,
inclusive of the lower bound and exclusive of the upper bound. -/
def BANDS : List (ℚ × ℚ) := [(0, 2), (2, 3), (3, 4), (4, 51/10)]

/-- `_band_for_score` from `vcm_logic/initiatives.py`: first band whose
half-open interval contains the score, falling back to `BANDS[-1]`. -/
def _band_for_score (score : ℚ) : ℚ × ℚ :=
  match BANDS.find? (fun band => decide (band.1 ≤ score ∧ score < band.2)) with
  | some band => band
  | none => BANDS.getLast (by decide)

/-- `_default_options()` from `vcm_logic/questions.py`: the shared answer
options across all questions. -/
def _default_options : List String :=
  ["Not started",
   "Ad hoc or limited",
   "Defined and repeatable",
   "Managed with metrics",
   "Optimized and automated"]

/-- `option_explanations()` from `vcm_logic/questions.py`. -/
def option_explanations : List (String × String) :=
  [("Not started",
    "No consistent approach exists yet; activities are mostly informal."),
   ("Ad hoc or limited",
    "Some individual efforts happen but they are not coordinated or measured."),
   ("Defined and repeatable",
    "Processes are documented and followed with basic governance in place."),
   ("Managed with metrics",
    "Execution is tracked with quantitative measures and corrective actions."),
   ("Optimized and automated",
    "Practices are continuously improved, automated where possible, and scaled.")]

/-- `get_pillars()` from `vcm_logic/questions.py`. -/
def get_pillars : List Pillar :=
  [Pillar.mk "strategy" "Strategy"
    "How clearly the organization aligns value goals with execution."
    [Question.mk "strategy_alignment"
      "Value objectives are clearly articulated and communicated across teams."
      _default_options,
     Question.mk "strategy_prioritization"
      "Initiatives are prioritized based on measurable impact and feasibility."
      _default_options],
   Pillar.mk "data" "Data & Tooling"
    "Readiness of data, models, and platforms supporting decisions."
    [Question.mk "data_quality"
      "Operational and financial data is trustworthy and regularly validated."
      _default_options,
     Question.mk "tooling_modern"
      "Analytics and decision-support tooling are modern, scalable, and well adopted."
      _default_options],
   Pillar.mk "execution" "Execution"
    "Discipline around delivering initiatives and measuring outcomes."
    [Question.mk "execution_delivery"
      "Projects are delivered predictably with clear ownership and timelines."
      _default_options,
     Question.mk "execution_measurement"
      "Benefits are tracked post-launch with feedback loops to improve future work."
      _default_options],
   Pillar.mk "culture" "Culture & Change"
    "Engagement, incentives, and behaviors that sustain value-centric thinking."
    [Question.mk "culture_adoption"
      "Teams embrace value-centric decision making in daily routines."
      _default_options,
     Question.mk "culture_training"
      "Enablement programs build literacy in data, finance, and change management."
      _default_options]]

/-- `Initiative` dataclass from `vcm_logic/initiatives.py`. -/
structure Initiative where
  title : String
  description : String
deriving DecidableEq

/-- `_INITIATIVES` from `vcm_logic/initiatives.py`: per-pillar table of
score-band to initiative list, keyed by the `BANDS` tuples. -/
def _INITIATIVES : List (String × List ((ℚ × ℚ) × List Initiative)) :=
  [("strategy",
    [((0, 2),
      [Initiative.mk "Define value north star"
        "Document 3-5 measurable value outcomes and circulate them across leadership.",
       Initiative.mk "Decision cadence"
        "Establish a monthly forum to prioritize work by value and risk."]),
     ((2, 3),
      [Initiative.mk "Roadmap by value"
        "Score backlog items by impact vs. effort and publish a quarterly roadmap."]),
     ((3, 4),
      [Initiative.mk "KPIs with ownership"
        "Assign accountable owners for value KPIs and track progress in a shared dashboard."]),
     ((4, 51/10),
      [Initiative.mk "Adaptive capital allocation"
        "Rebalance funding each quarter based on realized benefits and new opportunities."])]),
   ("data",
    [((0, 2),
      [Initiative.mk "Data inventory"
        "List critical datasets, owners, and known gaps to inform remediation priorities."]),
     ((2, 3),
      [Initiative.mk "Quality baselines"
        "Implement basic data quality checks on the most used tables or reports.",
       Initiative.mk "Tooling uplift"
        "Pilot a modern analytics stack with one high-value use case."]),
     ((3, 4),
      [Initiative.mk "Model governance"
        "Introduce versioning, testing, and monitoring for key analytical models."]),
     ((4, 51/10),
      [Initiative.mk "Self-service enablement"
        "Broaden governed data access and training for power users across teams."])]),
   ("execution",
    [((0, 2),
      [Initiative.mk "Delivery playbook"
        "Standardize intake templates, stage gates, and RACI to reduce ambiguity."]),
     ((2, 3),
      [Initiative.mk "Pilot value tracking"
        "Run a small project with explicit benefit hypotheses and simple tracking."]),
     ((3, 4),
      [Initiative.mk "Benefits realization"
        "Embed benefit tracking into project close-out and post-launch reviews."]),
     ((4, 51/10),
      [Initiative.mk "Portfolio optimization"
        "Continuously reprioritize initiatives based on realized vs. forecast benefits."])]),
   ("culture",
    [((0, 2),
      [Initiative.mk "Narrative for change"
        "Share success stories linking value outcomes to daily work to build momentum."]),
     ((2, 3),
      [Initiative.mk "Targeted enablement"
        "Offer short trainings on value framing, data literacy, and change management."]),
     ((3, 4),
      [Initiative.mk "Incentives alignment"
        "Align performance goals and recognition with value-centric behaviors."]),
     ((4, 51/10),
      [Initiative.mk "Communities of practice"
        "Sustain peer-led forums to share learnings and continuously improve."])])]

/-- Python slicing `xs[:limit]` for an `int` slice bound: the first
`limit` elements when `limit ≥ 0`, and all but the last `-limit` elements
when `limit < 0`. -/
def pySliceTake (limit : Int) (l : List Initiative) : List Initiative :=
  if 0 ≤ limit then l.take limit.toNat
  else l.take (l.length - (-limit).toNat)

/-- The initiative list authored in `_INITIATIVES` for a pillar id and a
band: `_INITIATIVES.get(pillar_id, {})` followed by
`pillar_bands.get(band, [])`. -/
def band_initiatives (pillar_id : String) (band : ℚ × ℚ) : List Initiative :=
  let pillar_bands := ((_INITIATIVES.find? (fun e => decide (e.1 = pillar_id))).map
    (fun e => e.2)).getD []
  ((pillar_bands.find? (fun e => decide (e.1 = band))).map (fun e => e.2)).getD []

/-- `get_top_initiatives` from `vcm_logic/initiatives.py` (the Python
signature declares `limit: int = 3`; the default is supplied by callers
here). -/
def get_top_initiatives (pillar_id : String) (score : ℚ) (limit : Int) : List Initiative :=
  let band := _band_for_score score
  let initiatives := band_initiatives pillar_id band
  pySliceTake limit initiatives

/-- Following the words of the spec, for the refinement claim about
`score_responses`: the per-question integer score is the zero-based index
(first occurrence) of the chosen option in that question's option list,
plus one.  (The `none` branch is never reached under the claim's
hypothesis that every question id is answered.) -/
def spec_question_score (answers : String → Option String) (q : Question) : Int :=
  match answers q.id with
  | none => 0
  | some o => (((pyIndex o q.options).getD 0 : ℕ) : Int) + 1

/-- Following the words of the spec: the `PillarScore` prescribed for one
pillar — the per-question scores keyed by question id in catalog order,
and their arithmetic mean (sum divided by the number of questions). -/
def spec_pillar_score (answers : String → Option String) (p : Pillar) : PillarScore :=
  PillarScore.mk p.id
    (((p.questions.map (spec_question_score answers)).sum : ℚ) / (p.questions.length : ℚ))
    (p.questions.map (fun q => (q.id, spec_question_score answers q)))

/-- Following the words of the spec: the full mapping prescribed for
`score_responses`, one `spec_pillar_score` entry per pillar id. -/
def spec_results (answers : String → Option String) (pillars : List Pillar) :
    List (String × PillarScore) :=
  pillars.foldl (fun acc p => dictInsert p.id (spec_pillar_score answers p) acc) []

/-- Round-half-even to an integer, the rounding Python applies when
formatting with `.0f`/`.1f` (the embedding's model of decimal float
formatting; the scores at hand are exact). -/
def roundHalfEven (x : ℚ) : Int :=
  if x - ⌊x⌋ < 1/2 then ⌊x⌋
  else if 1/2 < x - ⌊x⌋ then ⌊x⌋ + 1
  else if ⌊x⌋ % 2 = 0 then ⌊x⌋ else ⌊x⌋ + 1

/-- Python `f"{x:.1f}"`: the value scaled by ten and rounded half-even,
rendered with exactly one digit after the decimal point. -/
def fmt1 (x : ℚ) : String :=
  let n := roundHalfEven (x * 10)
  let sign := if n < 0 then "-" else ""
  sign ++ toString (n.natAbs / 10) ++ "." ++ toString (n.natAbs % 10)

/-- Helper for thousands grouping: on the reversed digit list, keep
groups of three digits separated by commas. -/
def commaRev : List Char → List Char
  | a :: b :: c :: rest =>
    match rest with
    | [] => [a, b, c]
    | _ :: _ => a :: b :: c :: ',' :: commaRev rest
  | l => l

/-- Insert thousands separators into a digit string. -/
def addCommas (digits : String) : String :=
  String.mk ((commaRev digits.data.reverse).reverse)

/-- Python `f"{x:,.0f}"`: rounded half-even to an integer and rendered
with thousands-grouping commas and no decimals. -/
def fmtCommas0 (x : ℚ) : String :=
  let n := roundHalfEven x
  let sign := if n < 0 then "-" else ""
  sign ++ addCommas (toString n.natAbs)

/-- Python `"\n".join(...)`. -/
def joinNl : List String → String
  | [] => ""
  | [s] => s
  | s :: rest => s ++ "\n" ++ joinNl rest

/-- The `lines` list built inside `_format_pillar_section` in
`vcm_logic/report_builder.py`: heading, average line and — when any
initiatives were supplied — the recommendation header and one bullet per
initiative. -/
def _format_pillar_section_lines (pillar : Pillar) (score : PillarScore)
    (initiatives : List Initiative) : List String :=
  let lines := ["## " ++ pillar.name, "**Average score:** " ++ fmt1 score.average]
  if initiatives.isEmpty then lines
  else lines ++ ("**Recommended initiatives:**" ::
    initiatives.map (fun item => "- **" ++ item.title ++ "** — " ++ item.description))

/-- `_format_pillar_section` from `vcm_logic/report_builder.py`: its
`lines` joined with newlines. -/
def _format_pillar_section (pillar : Pillar) (score : PillarScore)
    (initiatives : List Initiative) : String :=
  joinNl (_format_pillar_section_lines pillar score initiatives)

/-- The fixed label opening the value-at-stake line. -/
def vas_marker : String := "**Estimated value at stake:**"

/-- The value-at-stake section,
`f"**Estimated value at stake:** ₱{value_at_stake:,.0f} (PHP)"`. -/
def vas_line (v : ℚ) : String :=
  "**Estimated value at stake:** ₱" ++ fmtCommas0 v ++ " (PHP)"

/-- `vas_line` of an optional value (`""` when absent), to state the
value-at-stake clause of the report without binders. -/
def vas_lineOf : Option ℚ → String
  | some v => vas_line v
  | none => ""

/-- The fixed closing disclaimer of the report. -/
def report_disclaimer : String :=
  "These recommendations are illustrative placeholders. Replace them with your organization's guidance before sharing broadly."

/-- The pillar loop of `build_markdown_report`: for each pillar in order,
the lookup `pillar_scores[pillar.id]` (a `KeyError` when absent), the
graceful `initiatives.get(pillar.id, [])`, the formatted section, and the
`""` spacer appended after it. -/
def reportPillarSections (pillar_scores : String → Option PillarScore)
    (initiatives : String → Option (List Initiative)) :
    List Pillar → Except PyError (List String)
  | [] => .ok []
  | pillar :: rest =>
    match pillar_scores pillar.id with
    | none => .error (.keyError pillar.id)
    | some score =>
      match reportPillarSections pillar_scores initiatives rest with
      | .error e => .error e
      | .ok tail =>
        .ok (_format_pillar_section pillar score ((initiatives pillar.id).getD []) ::
          "" :: tail)

/-- `build_markdown_report` from `vcm_logic/report_builder.py`. -/
def build_markdown_report (pillars : List Pillar)
    (pillar_scores : String → Option PillarScore) (maturity_level : String)
    (overall_score : ℚ) (value_at_stake : Option ℚ)
    (initiatives : String → Option (List Initiative)) : Except PyError String :=
  let sections := ["# Value-Centered Maturity Assessment", ""]
  let sections := sections ++ ["**Overall score:** " ++ fmt1 overall_score]
  let sections := sections ++ ["**Maturity level:** " ++ maturity_level]
  let sections :=
    match value_at_stake with
    | some v => sections ++ [vas_line v]
    | none => sections
  let sections := sections ++ ["\n---\n"]
  match reportPillarSections pillar_scores initiatives pillars with
  | .error e => .error e
  | .ok psecs => .ok (joinNl (sections ++ psecs ++ ["\n---\n", report_disclaimer]))

/-- Following the report's construction, for stating what the produced
text contains: the pillar loop at the granularity of single lines. -/
def pillarLinesList (pillar_scores : String → Option PillarScore)
    (initiatives : String → Option (List Initiative)) :
    List Pillar → Except PyError (List String)
  | [] => .ok []
  | pillar :: rest =>
    match pillar_scores pillar.id with
    | none => .error (.keyError pillar.id)
    | some score =>
      match pillarLinesList pillar_scores initiatives rest with
      | .error e => .error e
      | .ok tail =>
        .ok (_format_pillar_section_lines pillar score ((initiatives pillar.id).getD [])
          ++ [""] ++ tail)

/-- Following the report's construction: its full line list —
`build_markdown_report` is the `"\n"`-join of these lines. -/
def report_lines (pillars : List Pillar)
    (pillar_scores : String → Option PillarScore) (maturity_level : String)
    (overall_score : ℚ) (value_at_stake : Option ℚ)
    (initiatives : String → Option (List Initiative)) : Except PyError (List String) :=
  let head := ["# Value-Centered Maturity Assessment", "",
    "**Overall score:** " ++ fmt1 overall_score,
    "**Maturity level:** " ++ maturity_level]
  let head :=
    match value_at_stake with
    | some v => head ++ [vas_line v]
    | none => head
  match pillarLinesList pillar_scores initiatives pillars with
  | .error e => .error e
  | .ok plines =>
    .ok (head ++ ["", "---", ""] ++ plines ++ ["", "---", "", report_disclaimer])

/-- The line list of a successful result, `[]` on error. -/
def linesOf (r : Except PyError (List String)) : List String :=
  r.toOption.getD []

lemma levelRank_compute (s : ℚ) :
    levelRank (compute_maturity_level s) =
      if s < 2 then 0 else if s < 3 then 1 else if s < 4 then 2 else 3 := by
  unfold compute_maturity_level
  split_ifs <;> decide

/-- C3: `compute_maturity_level` is total over the (rational) line and
satisfies exactly the boundary table — `score < 2` yields `"Nascent"`,
`2 ≤ score < 3` yields `"Emerging"`, `3 ≤ score < 4` yields
`"Established"`, `score ≥ 4` yields `"Leading"` — and it is monotonically
non-decreasing in the score with respect to the label order
Nascent < Emerging < Established < Leading. -/
theorem C3_maturity_level_table (s t : ℚ) (hst : s ≤ t) :
    (compute_maturity_level s = "Nascent" ↔ s < 2) ∧
    (compute_maturity_level s = "Emerging" ↔ 2 ≤ s ∧ s < 3) ∧
    (compute_maturity_level s = "Established" ↔ 3 ≤ s ∧ s < 4) ∧
    (compute_maturity_level s = "Leading" ↔ 4 ≤ s) ∧
    levelRank (compute_maturity_level s) ≤ levelRank (compute_maturity_level t) := by
  refine ⟨?_, ?_, ?_, ?_, ?_⟩
  · unfold compute_maturity_level
    split_ifs with h1 h2 h3
    · exact iff_of_true rfl h1
    · exact iff_of_false (by decide) h1
    · exact iff_of_false (by decide) h1
    · exact iff_of_false (by decide) h1
  · unfold compute_maturity_level
    split_ifs with h1 h2 h3
    · exact iff_of_false (by decide) (fun h => absurd h1 (not_lt.mpr h.1))
    · exact iff_of_true rfl ⟨not_lt.mp h1, h2⟩
    · exact iff_of_false (by decide) (fun h => absurd h.2 (not_lt.mpr (not_lt.mp h2)))
    · exact iff_of_false (by decide) (fun h => absurd h.2 (not_lt.mpr (not_lt.mp h2)))
  · unfold compute_maturity_level
    split_ifs with h1 h2 h3
    · exact iff_of_false (by decide) (fun h => absurd h1 (not_lt.mpr (le_trans (by norm_num) h.1)))
    · exact iff_of_false (by decide) (fun h => absurd h2 (not_lt.mpr h.1))
    · exact iff_of_true rfl ⟨not_lt.mp h2, h3⟩
    · exact iff_of_false (by decide) (fun h => absurd h.2 (not_lt.mpr (not_lt.mp h3)))
  · unfold compute_maturity_level
    split_ifs with h1 h2 h3
    · exact iff_of_false (by decide) (fun h => absurd h1 (not_lt.mpr (le_trans (by norm_num) h)))
    · exact iff_of_false (by decide) (fun h => absurd h2 (not_lt.mpr (le_trans (by norm_num) h)))
    · exact iff_of_false (by decide) (fun h => absurd h3 (not_lt.mpr h))
    · exact iff_of_true rfl (not_lt.mp h3)
  · rw [levelRank_compute, levelRank_compute]
    split_ifs <;> first | omega | linarith

/-- Witness for C3 at the concrete scores 2 and 4. -/
theorem C3_maturity_level_table_witness :
    (2 : ℚ) ≤ 4 ∧
    ((compute_maturity_level 2 = "Nascent" ↔ (2 : ℚ) < 2) ∧
     (compute_maturity_level 2 = "Emerging" ↔ (2 : ℚ) ≤ 2 ∧ (2 : ℚ) < 3) ∧
     (compute_maturity_level 2 = "Established" ↔ (3 : ℚ) ≤ 2 ∧ (2 : ℚ) < 4) ∧
     (compute_maturity_level 2 = "Leading" ↔ (4 : ℚ) ≤ 2) ∧
     levelRank (compute_maturity_level 2) ≤ levelRank (compute_maturity_level 4)) :=
  ⟨by norm_num, C3_maturity_level_table 2 4 (by norm_num)⟩

/-- C4: on a non-empty pillar-score mapping `overall_average` is the
arithmetic mean of the `PillarScore.average` values (each pillar weighted
equally), and on the empty mapping it is exactly `0`. -/
theorem C4_overall_average_mean (ps : List (String × PillarScore)) :
    (ps ≠ [] →
      overall_average ps = ((ps.map (fun kv => kv.2.average)).sum) / (ps.length : ℚ)) ∧
    overall_average [] = 0 := by
  constructor
  · intro h
    unfold overall_average
    rw [if_neg]
    simp [List.isEmpty_iff, h]
  · rfl

/-- Witness for C4 on a concrete one-entry mapping. -/
theorem C4_overall_average_mean_witness :
    [("p", PillarScore.mk "p" 3 [])] ≠ [] ∧
    overall_average [("p", PillarScore.mk "p" 3 [])] =
      (([("p", PillarScore.mk "p" 3 [])]).map (fun kv => kv.2.average)).sum /
        (([("p", PillarScore.mk "p" 3 [])]).length : ℚ) :=
  ⟨by simp, (C4_overall_average_mean [("p", PillarScore.mk "p" 3 [])]).1 (by simp)⟩


lemma mem_BANDS_iff (b : ℚ × ℚ) :
    b ∈ BANDS ↔ b = (0, 2) ∨ b = (2, 3) ∨ b = (3, 4) ∨ b = (4, 51/10) := by
  simp [BANDS]

lemma band_for_score_eval (s : ℚ) :
    _band_for_score s =
      if 0 ≤ s ∧ s < 2 then (0, 2)
      else if 2 ≤ s ∧ s < 3 then (2, 3)
      else if 3 ≤ s ∧ s < 4 then (3, 4)
      else (4, 51/10) := by
  unfold _band_for_score
  split_ifs with h1 h2 h3
  · simp [BANDS, List.find?, h1]
  · simp [BANDS, List.find?, h1, h2]
  · simp [BANDS, List.find?, h1, h2, h3]
  · by_cases h4 : 4 ≤ s ∧ s < 51/10
    · simp [BANDS, List.find?, h1, h2, h3, h4]
    · simp [BANDS, List.find?, h1, h2, h3, h4]

/-- C5: the band table is exactly `[0,2) [2,3) [3,4) [4,5.1)`; these are
exhaustive and non-overlapping on `[0, 5.1)` so each such score lies in
exactly one band, `_band_for_score` returns that band (the first match of
an ascending scan), and every score outside `[0, 5.1)` falls back to the
highest band `[4, 5.1)`. -/
theorem C5_band_selection (s : ℚ) :
    BANDS = [((0 : ℚ), (2 : ℚ)), ((2 : ℚ), (3 : ℚ)), ((3 : ℚ), (4 : ℚ)), ((4 : ℚ), (51/10 : ℚ))] ∧
    (0 ≤ s ∧ s < 51/10 →
      ∃ b ∈ BANDS, (b.1 ≤ s ∧ s < b.2) ∧ _band_for_score s = b ∧
        ∀ b2 ∈ BANDS, b2.1 ≤ s ∧ s < b2.2 → b2 = b) ∧
    (s < 0 ∨ 51/10 ≤ s → _band_for_score s = (4, 51/10)) := by
  refine ⟨rfl, ?_, ?_⟩
  · rintro ⟨h0, h51⟩
    rcases lt_or_le s 2 with h2 | h2
    · refine ⟨(0, 2), by rw [mem_BANDS_iff]; tauto, by constructor <;> norm_num <;> linarith, ?_, ?_⟩
      · rw [band_for_score_eval, if_pos ⟨h0, h2⟩]
      · intro b2 hb2 hb2s
        rw [mem_BANDS_iff] at hb2
        rcases hb2 with rfl | rfl | rfl | rfl
        · rfl
        · exfalso; norm_num at hb2s; linarith
        · exfalso; norm_num at hb2s; linarith
        · exfalso; norm_num at hb2s; linarith
    · rcases lt_or_le s 3 with h3 | h3
      · refine ⟨(2, 3), by rw [mem_BANDS_iff]; tauto, by constructor <;> norm_num <;> linarith, ?_, ?_⟩
        · rw [band_for_score_eval, if_neg (by rintro ⟨-, hx⟩; linarith), if_pos ⟨h2, h3⟩]
        · intro b2 hb2 hb2s
          rw [mem_BANDS_iff] at hb2
          rcases hb2 with rfl | rfl | rfl | rfl
          · exfalso; norm_num at hb2s; linarith
          · rfl
          · exfalso; norm_num at hb2s; linarith
          · exfalso; norm_num at hb2s; linarith
      · rcases lt_or_le s 4 with h4 | h4
        · refine ⟨(3, 4), by rw [mem_BANDS_iff]; tauto, by constructor <;> norm_num <;> linarith, ?_, ?_⟩
          · rw [band_for_score_eval, if_neg (by rintro ⟨-, hx⟩; linarith),
              if_neg (by rintro ⟨-, hx⟩; linarith), if_pos ⟨h3, h4⟩]
          · intro b2 hb2 hb2s
            rw [mem_BANDS_iff] at hb2
            rcases hb2 with rfl | rfl | rfl | rfl
            · exfalso; norm_num at hb2s; linarith
            · exfalso; norm_num at hb2s; linarith
            · rfl
            · exfalso; norm_num at hb2s; linarith
        · refine ⟨(4, 51/10), by rw [mem_BANDS_iff]; tauto, by constructor <;> norm_num <;> linarith, ?_, ?_⟩
          · rw [band_for_score_eval, if_neg (by rintro ⟨-, hx⟩; linarith),
              if_neg (by rintro ⟨-, hx⟩; linarith), if_neg (by rintro ⟨-, hx⟩; linarith)]
          · intro b2 hb2 hb2s
            rw [mem_BANDS_iff] at hb2
            rcases hb2 with rfl | rfl | rfl | rfl
            · exfalso; norm_num at hb2s; linarith
            · exfalso; norm_num at hb2s; linarith
            · exfalso; norm_num at hb2s; linarith
            · rfl
  · intro h
    rw [band_for_score_eval]
    rcases h with h | h
    · rw [if_neg (by rintro ⟨hx, -⟩; linarith), if_neg (by rintro ⟨hx, -⟩; linarith),
        if_neg (by rintro ⟨hx, -⟩; linarith)]
    · rw [if_neg (by rintro ⟨-, hx⟩; linarith), if_neg (by rintro ⟨-, hx⟩; linarith),
        if_neg (by rintro ⟨-, hx⟩; linarith)]

/-- Witness for C5 at the concrete score 1 (inside `[0, 5.1)`) extracting
the matched band, and at the concrete score 6 (outside) extracting the
fallback. -/
theorem C5_band_selection_witness :
    ((0 : ℚ) ≤ 1 ∧ (1 : ℚ) < 51/10) ∧
    (∃ b ∈ BANDS, (b.1 ≤ (1 : ℚ) ∧ (1 : ℚ) < b.2) ∧ _band_for_score 1 = b ∧
      ∀ b2 ∈ BANDS, b2.1 ≤ (1 : ℚ) ∧ (1 : ℚ) < b2.2 → b2 = b) ∧
    ((6 : ℚ) < 0 ∨ (51/10 : ℚ) ≤ 6) ∧ _band_for_score 6 = (4, 51/10) :=
  ⟨by norm_num, (C5_band_selection 1).2.1 (by norm_num),
   by norm_num, (C5_band_selection 6).2.2 (by norm_num)⟩

/-- C9: every question of every pillar of `get_pillars` carries the
identical ordered option list of exactly five labels, and the labels of
`option_explanations` are exactly that shared option list in identical
order.  Stated as a closed decidable proposition over the concrete
catalog. -/
theorem C9_catalog_shared_options :
    (get_pillars.all fun p => p.questions.all fun q =>
      decide (q.options = _default_options)) = true ∧
    _default_options.length = 5 ∧
    option_explanations.map Prod.fst = _default_options := by
  exact ⟨by decide, rfl, rfl⟩
/-- C6 (amended to non-negative `limit`): for every pillar id, score and
`limit ≥ 0`, `get_top_initiatives` is the matched band's authored list
truncated to its first `limit` entries in authored order, hence has
length at most `limit`; an unknown pillar id, or a matched band with no
entries, yields the empty list rather than an error. -/
theorem C6_top_initiatives_truncation (pid : String) (score : ℚ) (limit : Int)
    (h : 0 ≤ limit) :
    ((get_top_initiatives pid score limit).length : Int) ≤ limit ∧
    get_top_initiatives pid score limit =
      (band_initiatives pid (_band_for_score score)).take limit.toNat ∧
    (_INITIATIVES.find? (fun e => decide (e.1 = pid)) = none →
      get_top_initiatives pid score limit = []) ∧
    (band_initiatives pid (_band_for_score score) = [] →
      get_top_initiatives pid score limit = []) := by
  have heq : get_top_initiatives pid score limit =
      (band_initiatives pid (_band_for_score score)).take limit.toNat := by
    unfold get_top_initiatives pySliceTake
    rw [if_pos h]
  refine ⟨?_, heq, ?_, ?_⟩
  · rw [heq]
    have hlen : ((band_initiatives pid (_band_for_score score)).take limit.toNat).length
        ≤ limit.toNat := by
      simp
    omega
  · intro hnone
    rw [heq]
    unfold band_initiatives
    rw [hnone]
    simp [List.find?]
  · intro hempty
    rw [heq, hempty]
    simp

/-- Witness for C6 at `("strategy", 0, 3)`: at most three initiatives,
equal to the truncated authored band list, with the no-content clauses. -/
theorem C6_top_initiatives_truncation_witness :
    (0 : Int) ≤ 3 ∧
    (((get_top_initiatives "strategy" 0 3).length : Int) ≤ 3 ∧
     get_top_initiatives "strategy" 0 3 =
       (band_initiatives "strategy" (_band_for_score 0)).take (3 : Int).toNat ∧
     (_INITIATIVES.find? (fun e => decide (e.1 = "strategy")) = none →
       get_top_initiatives "strategy" 0 3 = []) ∧
     (band_initiatives "strategy" (_band_for_score 0) = [] →
       get_top_initiatives "strategy" 0 3 = [])) :=
  ⟨by norm_num, C6_top_initiatives_truncation "strategy" 0 3 (by norm_num)⟩

/-- Counterexample to C6 as stated: Python slicing with the negative
limit `-1` keeps all but the last entry, so
`get_top_initiatives("strategy", 0, -1)` returns one initiative, whose
length is not at most the limit. -/
theorem C6_counterexample :
    ¬ (((get_top_initiatives "strategy" 0 (-1)).length : Int) ≤ -1) ∧
    get_top_initiatives "strategy" 0 (-1) =
      [Initiative.mk "Define value north star"
        "Document 3-5 measurable value outcomes and circulate them across leadership."] := by
  constructor
  · decide
  · decide

lemma dictInsert_length_le {α : Type} (k : String) (v : α) (l : List (String × α)) :
    l.length ≤ (dictInsert k v l).length := by
  induction l with
  | nil => simp [dictInsert]
  | cons hd tl ih =>
    obtain ⟨k2, v2⟩ := hd
    unfold dictInsert
    split_ifs
    · simp
    · simpa using ih

lemma dictInsert_length_pos {α : Type} (k : String) (v : α) (l : List (String × α)) :
    1 ≤ (dictInsert k v l).length := by
  cases l with
  | nil => simp [dictInsert]
  | cons hd tl =>
    have h := dictInsert_length_le k v (hd :: tl)
    have h2 : 1 ≤ (hd :: tl).length := by simp
    omega

lemma dictInsert_eq_append {α : Type} (k : String) (v : α) (l : List (String × α))
    (h : k ∉ l.map Prod.fst) : dictInsert k v l = l ++ [(k, v)] := by
  induction l with
  | nil => rfl
  | cons hd tl ih =>
    obtain ⟨k2, v2⟩ := hd
    simp only [List.map_cons, List.mem_cons, not_or] at h
    unfold dictInsert
    rw [if_neg (fun hk => h.1 hk.symm)]
    simp [ih h.2]

lemma mem_dictInsert {α : Type} (k : String) (v : α) (l : List (String × α))
    (e : String × α) (h : e ∈ dictInsert k v l) : e ∈ l ∨ e = (k, v) := by
  induction l with
  | nil =>
    simp [dictInsert] at h
    right; exact h
  | cons hd tl ih =>
    obtain ⟨k2, v2⟩ := hd
    unfold dictInsert at h
    split_ifs at h with hk
    · rcases List.mem_cons.mp h with rfl | h2
      · right; rfl
      · left; exact List.mem_cons_of_mem _ h2
    · rcases List.mem_cons.mp h with rfl | h2
      · left; exact List.mem_cons_self _ _
      · rcases ih h2 with h3 | h3
        · left; exact List.mem_cons_of_mem _ h3
        · right; exact h3

lemma mem_keys_dictInsert {α : Type} (k : String) (v : α) (l : List (String × α))
    (a : String) (h : a ∈ l.map Prod.fst) : a ∈ (dictInsert k v l).map Prod.fst := by
  induction l with
  | nil => simp at h
  | cons hd tl ih =>
    obtain ⟨k2, v2⟩ := hd
    simp only [List.map_cons, List.mem_cons] at h
    unfold dictInsert
    split_ifs with hk
    · rcases h with rfl | h2
      · simp [hk]
      · simp [h2]
    · rcases h with rfl | h2
      · simp
      · simp only [List.map_cons, List.mem_cons]
        right
        exact ih h2

lemma self_mem_keys_dictInsert {α : Type} (k : String) (v : α) (l : List (String × α)) :
    k ∈ (dictInsert k v l).map Prod.fst := by
  induction l with
  | nil => simp [dictInsert]
  | cons hd tl ih =>
    obtain ⟨k2, v2⟩ := hd
    unfold dictInsert
    split_ifs with hk
    · simp
    · simp only [List.map_cons, List.mem_cons]
      right
      exact ih

lemma pyIndex_eq_none_iff (x : String) (l : List String) :
    pyIndex x l = none ↔ x ∉ l := by
  induction l with
  | nil => simp [pyIndex]
  | cons o rest ih =>
    unfold pyIndex
    split_ifs with ho
    · subst ho
      simp
    · rw [Option.map_eq_none', ih]
      constructor
      · intro h hmem
        rcases List.mem_cons.mp hmem with rfl | hm
        · exact ho rfl
        · exact h hm
      · intro h hm
        exact h (List.mem_cons_of_mem _ hm)

lemma pyIndex_of_mem (x : String) (l : List String) (h : x ∈ l) :
    ∃ i, pyIndex x l = some i ∧ i < l.length := by
  induction l with
  | nil => simp at h
  | cons o rest ih =>
    unfold pyIndex
    split_ifs with ho
    · exact ⟨0, rfl, by simp⟩
    · have hx : x ∈ rest := by
        rcases List.mem_cons.mp h with rfl | hm
        · exact (ho rfl).elim
        · exact hm
      obtain ⟨i, hi, hlen⟩ := ih hx
      refine ⟨i + 1, by rw [hi]; rfl, ?_⟩
      simp
      omega

lemma scoreQuestions_ok_length (answers : String → Option String) :
    ∀ (qs : List Question) (acc r : List (String × Int)),
      scoreQuestions answers qs acc = .ok r →
      acc.length ≤ r.length ∧ (qs ≠ [] → 1 ≤ r.length) := by
  intro qs
  induction qs with
  | nil =>
    intro acc r h
    simp only [scoreQuestions] at h
    injection h with h
    subst h
    exact ⟨le_refl _, fun hq => absurd rfl hq⟩
  | cons q rest ih =>
    intro acc r h
    cases hA : answers q.id with
    | none =>
      simp only [scoreQuestions, hA] at h
      exact absurd h (by simp)
    | some o =>
      cases hI : pyIndex o q.options with
      | none =>
        simp only [scoreQuestions, hA, _option_to_score, hI] at h
        exact absurd h (by simp)
      | some i =>
        simp only [scoreQuestions, hA, _option_to_score, hI] at h
        obtain ⟨h1, h2⟩ := ih (dictInsert q.id ((i : Int) + 1) acc) r h
        refine ⟨le_trans (dictInsert_length_le _ _ _) h1, fun _ => ?_⟩
        exact le_trans (dictInsert_length_pos _ _ _) h1

lemma scoreQuestions_ok_of_valid (answers : String → Option String) :
    ∀ qs : List Question,
      (∀ q ∈ qs, ∃ o ∈ q.options, answers q.id = some o) →
      ∀ acc, ∃ r, scoreQuestions answers qs acc = .ok r := by
  intro qs
  induction qs with
  | nil => exact fun _ acc => ⟨acc, rfl⟩
  | cons q rest ih =>
    intro hv acc
    obtain ⟨o, ho, hA⟩ := hv q (List.mem_cons_self q rest)
    obtain ⟨i, hI, -⟩ := pyIndex_of_mem o q.options ho
    obtain ⟨r, hr⟩ := ih (fun q2 hq2 => hv q2 (List.mem_cons_of_mem q hq2))
      (dictInsert q.id ((i : Int) + 1) acc)
    refine ⟨r, ?_⟩
    simp only [scoreQuestions, hA, _option_to_score, hI]
    exact hr

lemma scoreQuestions_error_of_invalid (answers : String → Option String) :
    ∀ qs : List Question,
      (¬ ∀ q ∈ qs, ∃ o ∈ q.options, answers q.id = some o) →
      ∀ acc, ∃ e, scoreQuestions answers qs acc = .error e := by
  intro qs
  induction qs with
  | nil => intro hv _; exact absurd (by simp) hv
  | cons q rest ih =>
    intro hv acc
    by_cases hq : ∃ o ∈ q.options, answers q.id = some o
    · obtain ⟨o, ho, hA⟩ := hq
      obtain ⟨i, hI, -⟩ := pyIndex_of_mem o q.options ho
      have hrest : ¬ ∀ q2 ∈ rest, ∃ o2 ∈ q2.options, answers q2.id = some o2 := by
        intro hall
        apply hv
        intro q2 hq2
        rcases List.mem_cons.mp hq2 with rfl | hm
        · exact ⟨o, ho, hA⟩
        · exact hall q2 hm
      obtain ⟨e, he⟩ := ih hrest (dictInsert q.id ((i : Int) + 1) acc)
      refine ⟨e, ?_⟩
      simp only [scoreQuestions, hA, _option_to_score, hI]
      exact he
    · cases hA : answers q.id with
      | none => exact ⟨.keyError q.id, by simp only [scoreQuestions, hA]⟩
      | some v =>
        have hv2 : v ∉ q.options := fun hmem => hq ⟨v, hmem, hA⟩
        have hI : pyIndex v q.options = none := (pyIndex_eq_none_iff v q.options).mpr hv2
        exact ⟨.valueErrorUnknownOption v q.id,
          by simp only [scoreQuestions, hA, _option_to_score, hI]⟩

lemma scoreQuestions_error_cases (answers : String → Option String) :
    ∀ (qs : List Question) (acc : List (String × Int)) (e : PyError),
      scoreQuestions answers qs acc = .error e →
      ∃ q ∈ qs, (answers q.id = none ∧ e = .keyError q.id) ∨
        (∃ v, answers q.id = some v ∧ v ∉ q.options ∧
          e = .valueErrorUnknownOption v q.id) := by
  intro qs
  induction qs with
  | nil =>
    intro acc e h
    simp only [scoreQuestions] at h
    exact absurd h (by simp)
  | cons q rest ih =>
    intro acc e h
    cases hA : answers q.id with
    | none =>
      simp only [scoreQuestions, hA] at h
      injection h with h2
      exact ⟨q, List.mem_cons_self q rest, Or.inl ⟨hA, h2.symm⟩⟩
    | some v =>
      cases hI : pyIndex v q.options with
      | none =>
        simp only [scoreQuestions, hA, _option_to_score, hI] at h
        injection h with h2
        exact ⟨q, List.mem_cons_self q rest,
          Or.inr ⟨v, hA, (pyIndex_eq_none_iff v q.options).mp hI, h2.symm⟩⟩
      | some i =>
        simp only [scoreQuestions, hA, _option_to_score, hI] at h
        obtain ⟨q2, hq2, hcase⟩ := ih _ e h
        exact ⟨q2, List.mem_cons_of_mem q hq2, hcase⟩

lemma pillarAverage_ok_of_pos (nr : List (String × Int)) (h : 1 ≤ nr.length) :
    pillarAverage nr =
      .ok (((nr.map (fun kv => kv.2)).sum : ℚ) / (nr.length : ℚ)) := by
  unfold pillarAverage
  rw [if_neg (by omega)]

lemma scorePillars_ok_of_valid (answers : String → Option String) :
    ∀ pillars : List Pillar,
      (∀ p ∈ pillars, p.questions ≠ []) →
      (∀ p ∈ pillars, ∀ q ∈ p.questions, ∃ o ∈ q.options, answers q.id = some o) →
      ∀ acc, ∃ r, scorePillars answers pillars acc = .ok r := by
  intro pillars
  induction pillars with
  | nil => exact fun _ _ acc => ⟨acc, rfl⟩
  | cons p rest ih =>
    intro h1 hv acc
    obtain ⟨nr, hnr⟩ := scoreQuestions_ok_of_valid answers p.questions
      (hv p (List.mem_cons_self p rest)) []
    have hlen := (scoreQuestions_ok_length answers p.questions [] nr hnr).2
      (h1 p (List.mem_cons_self p rest))
    have havg := pillarAverage_ok_of_pos nr hlen
    obtain ⟨r, hr⟩ := ih (fun p2 hp2 => h1 p2 (List.mem_cons_of_mem p hp2))
      (fun p2 hp2 => hv p2 (List.mem_cons_of_mem p hp2))
      (dictInsert p.id
        (PillarScore.mk p.id (((nr.map (fun kv => kv.2)).sum : ℚ) / (nr.length : ℚ)) nr) acc)
    refine ⟨r, ?_⟩
    simp only [scorePillars, hnr, havg]
    exact hr

lemma scorePillars_error_of_invalid (answers : String → Option String) :
    ∀ pillars : List Pillar,
      (∀ p ∈ pillars, p.questions ≠ []) →
      (¬ ∀ p ∈ pillars, ∀ q ∈ p.questions, ∃ o ∈ q.options, answers q.id = some o) →
      ∀ acc, ∃ e, scorePillars answers pillars acc = .error e := by
  intro pillars
  induction pillars with
  | nil => intro _ hv _; exact absurd (by simp) hv
  | cons p rest ih =>
    intro h1 hv acc
    by_cases hp : ∀ q ∈ p.questions, ∃ o ∈ q.options, answers q.id = some o
    · obtain ⟨nr, hnr⟩ := scoreQuestions_ok_of_valid answers p.questions hp []
      have hlen := (scoreQuestions_ok_length answers p.questions [] nr hnr).2
        (h1 p (List.mem_cons_self p rest))
      have havg := pillarAverage_ok_of_pos nr hlen
      have hrest : ¬ ∀ p2 ∈ rest, ∀ q ∈ p2.questions, ∃ o ∈ q.options, answers q.id = some o := by
        intro hall
        apply hv
        intro p2 hp2
        rcases List.mem_cons.mp hp2 with rfl | hm
        · exact hp
        · exact hall p2 hm
      obtain ⟨e, he⟩ := ih (fun p2 hp2 => h1 p2 (List.mem_cons_of_mem p hp2)) hrest
        (dictInsert p.id
          (PillarScore.mk p.id (((nr.map (fun kv => kv.2)).sum : ℚ) / (nr.length : ℚ)) nr) acc)
      refine ⟨e, ?_⟩
      simp only [scorePillars, hnr, havg]
      exact he
    · obtain ⟨e, he⟩ := scoreQuestions_error_of_invalid answers p.questions hp []
      refine ⟨e, ?_⟩
      simp only [scorePillars, he]

lemma scorePillars_error_cases (answers : String → Option String) :
    ∀ pillars : List Pillar,
      (∀ p ∈ pillars, p.questions ≠ []) →
      ∀ (acc : List (String × PillarScore)) (e : PyError),
        scorePillars answers pillars acc = .error e →
        ∃ p ∈ pillars, ∃ q ∈ p.questions,
          (answers q.id = none ∧ e = .keyError q.id) ∨
          (∃ v, answers q.id = some v ∧ v ∉ q.options ∧
            e = .valueErrorUnknownOption v q.id) := by
  intro pillars
  induction pillars with
  | nil =>
    intro _ acc e h
    simp only [scorePillars] at h
    exact absurd h (by simp)
  | cons p rest ih =>
    intro h1 acc e h
    cases hQ : scoreQuestions answers p.questions [] with
    | error e0 =>
      simp only [scorePillars, hQ] at h
      injection h with h2
      subst h2
      obtain ⟨q, hq, hcase⟩ := scoreQuestions_error_cases answers p.questions [] e0 hQ
      exact ⟨p, List.mem_cons_self p rest, q, hq, hcase⟩
    | ok nr =>
      have hlen := (scoreQuestions_ok_length answers p.questions [] nr hQ).2
        (h1 p (List.mem_cons_self p rest))
      have havg := pillarAverage_ok_of_pos nr hlen
      simp only [scorePillars, hQ, havg] at h
      obtain ⟨p2, hp2, hrest⟩ := ih (fun p3 hp3 => h1 p3 (List.mem_cons_of_mem p hp3)) _ e h
      exact ⟨p2, List.mem_cons_of_mem p hp2, hrest⟩

/-- C1 (amended: every pillar's question list is non-empty; a pillar with
no questions instead fails with `ZeroDivisionError` even on a complete
answer set): `score_responses` succeeds exactly when every question id
encountered while traversing `pillars` is mapped by `answers` to one of
that question's options, and any error it raises is either a `KeyError`
carrying the missing question id or a `ValueError` carrying the offending
value and the question id. -/
theorem C1_scoring_error_conditions (answers : String → Option String)
    (pillars : List Pillar) (h1 : ∀ p ∈ pillars, p.questions ≠ []) :
    ((∃ r, score_responses answers pillars = .ok r) ↔
      ∀ p ∈ pillars, ∀ q ∈ p.questions, ∃ o ∈ q.options, answers q.id = some o) ∧
    (∀ e, score_responses answers pillars = .error e →
      ∃ p ∈ pillars, ∃ q ∈ p.questions,
        (answers q.id = none ∧ e = .keyError q.id) ∨
        (∃ v, answers q.id = some v ∧ v ∉ q.options ∧
          e = .valueErrorUnknownOption v q.id)) := by
  constructor
  · constructor
    · rintro ⟨r, hr⟩
      by_contra hv
      obtain ⟨e, he⟩ := scorePillars_error_of_invalid answers pillars h1 hv []
      unfold score_responses at hr
      rw [he] at hr
      exact absurd hr (by simp)
    · intro hv
      obtain ⟨r, hr⟩ := scorePillars_ok_of_valid answers pillars h1 hv []
      exact ⟨r, hr⟩
  · intro e he
    unfold score_responses at he
    exact scorePillars_error_cases answers pillars h1 [] e he

/-- Witness for C1 on a one-pillar catalog with a complete, valid answer
set. -/
theorem C1_scoring_error_conditions_witness :
    (∀ p ∈ [Pillar.mk "p" "P" "d" [Question.mk "q" "Q" ["a", "b"]]], p.questions ≠ []) ∧
    (((∃ r, score_responses (fun s => if s = "q" then some "a" else none)
          [Pillar.mk "p" "P" "d" [Question.mk "q" "Q" ["a", "b"]]] = .ok r) ↔
        ∀ p ∈ [Pillar.mk "p" "P" "d" [Question.mk "q" "Q" ["a", "b"]]],
          ∀ q ∈ p.questions, ∃ o ∈ q.options,
            (fun s => if s = "q" then some "a" else none) q.id = some o) ∧
     (∀ e, score_responses (fun s => if s = "q" then some "a" else none)
          [Pillar.mk "p" "P" "d" [Question.mk "q" "Q" ["a", "b"]]] = .error e →
        ∃ p ∈ [Pillar.mk "p" "P" "d" [Question.mk "q" "Q" ["a", "b"]]],
          ∃ q ∈ p.questions,
            ((fun s => if s = "q" then some "a" else none) q.id = none ∧
              e = .keyError q.id) ∨
            (∃ v, (fun s => if s = "q" then some "a" else none) q.id = some v ∧
              v ∉ q.options ∧ e = .valueErrorUnknownOption v q.id))) :=
  ⟨by decide, C1_scoring_error_conditions _ _ (by decide)⟩

/-- Counterexample to C1 as stated: on a pillar whose question list is
empty, `score_responses` fails (with Python's `ZeroDivisionError` from
`sum(...) / len(...)`) although the traversal encounters no question at
all, so no answer is missing and no option is unrecognized. -/
theorem C1_counterexample :
    score_responses (fun _ => none) [Pillar.mk "p" "P" "d" []] =
      .error .zeroDivisionError ∧
    (Pillar.mk "p" "P" "d" []).questions = [] :=
  ⟨rfl, rfl⟩

lemma scoreQuestions_congr (a1 a2 : String → Option String) :
    ∀ qs : List Question, (∀ q ∈ qs, a1 q.id = a2 q.id) →
      ∀ acc, scoreQuestions a1 qs acc = scoreQuestions a2 qs acc := by
  intro qs
  induction qs with
  | nil => intro _ _; rfl
  | cons q rest ih =>
    intro h acc
    have hq : a1 q.id = a2 q.id := h q (List.mem_cons_self q rest)
    simp only [scoreQuestions, hq]
    cases ha2 : a2 q.id with
    | none => simp only [ha2]
    | some o =>
      simp only [ha2]
      cases hos : _option_to_score o q with
      | error e => simp only [hos]
      | ok s =>
        simp only [hos]
        exact ih (fun q2 hq2 => h q2 (List.mem_cons_of_mem q hq2)) _

lemma scorePillars_congr (a1 a2 : String → Option String) :
    ∀ ps : List Pillar, (∀ p ∈ ps, ∀ q ∈ p.questions, a1 q.id = a2 q.id) →
      ∀ acc, scorePillars a1 ps acc = scorePillars a2 ps acc := by
  intro ps
  induction ps with
  | nil => intro _ _; rfl
  | cons p rest ih =>
    intro h acc
    have hsq := scoreQuestions_congr a1 a2 p.questions (h p (List.mem_cons_self p rest)) []
    simp only [scorePillars, hsq]
    cases hsq2 : scoreQuestions a2 p.questions [] with
    | error e => simp only [hsq2]
    | ok nr =>
      simp only [hsq2]
      cases havg : pillarAverage nr with
      | error e => simp only [havg]
      | ok avg =>
        simp only [havg]
        exact ih (fun p2 hp2 => h p2 (List.mem_cons_of_mem p hp2)) _

/-- C10: two answer mappings that agree on every question id occurring in
`pillars` drive `score_responses` to identical results — both succeed
with equal pillar-score mappings or both fail with the same error; in
particular entries for question ids outside the catalog are never read
and cannot influence the outcome. -/
theorem C10_answers_agreement (pillars : List Pillar)
    (a1 a2 : String → Option String)
    (h : ∀ p ∈ pillars, ∀ q ∈ p.questions, a1 q.id = a2 q.id) :
    score_responses a1 pillars = score_responses a2 pillars := by
  unfold score_responses
  exact scorePillars_congr a1 a2 pillars h []

/-- Witness for C10: the second answer mapping carries an extra junk
entry for every id outside the catalog, yet the results coincide. -/
theorem C10_answers_agreement_witness :
    (∀ p ∈ [Pillar.mk "p" "P" "d" [Question.mk "q" "Q" ["a", "b"]]],
      ∀ q ∈ p.questions,
        (fun s => if s = "q" then some "a" else none) q.id =
          (fun s => if s = "q" then some "a" else some "zzz") q.id) ∧
    score_responses (fun s => if s = "q" then some "a" else none)
        [Pillar.mk "p" "P" "d" [Question.mk "q" "Q" ["a", "b"]]] =
      score_responses (fun s => if s = "q" then some "a" else some "zzz")
        [Pillar.mk "p" "P" "d" [Question.mk "q" "Q" ["a", "b"]]] :=
  ⟨by decide, C10_answers_agreement _ _ _ (by decide)⟩

lemma scoreQuestions_eq_map (answers : String → Option String) :
    ∀ qs : List Question,
      (∀ q ∈ qs, ∃ o ∈ q.options, answers q.id = some o) →
      (qs.map Question.id).Nodup →
      ∀ acc, (∀ a ∈ acc.map Prod.fst, a ∉ qs.map Question.id) →
      scoreQuestions answers qs acc =
        .ok (acc ++ qs.map (fun q => (q.id, spec_question_score answers q))) := by
  intro qs
  induction qs with
  | nil => intro _ _ acc _; simp [scoreQuestions]
  | cons q rest ih =>
    intro hv hnd acc hdisj
    obtain ⟨o, ho, hA⟩ := hv q (List.mem_cons_self q rest)
    obtain ⟨i, hI, -⟩ := pyIndex_of_mem o q.options ho
    have hscore : spec_question_score answers q = (i : Int) + 1 := by
      simp only [spec_question_score, hA, hI, Option.getD_some]
    have hqid : q.id ∉ acc.map Prod.fst := by
      intro hmem
      exact hdisj q.id hmem (by simp)
    have hins : dictInsert q.id ((i : Int) + 1) acc = acc ++ [(q.id, (i : Int) + 1)] :=
      dictInsert_eq_append _ _ _ hqid
    simp only [List.map_cons, List.nodup_cons] at hnd
    have hdisj2 : ∀ a ∈ (acc ++ [(q.id, (i : Int) + 1)]).map Prod.fst,
        a ∉ rest.map Question.id := by
      intro a ha
      simp only [List.map_append, List.map_cons, List.map_nil, List.mem_append,
        List.mem_cons, List.not_mem_nil, or_false] at ha
      rcases ha with ha | rfl
      · intro hmem
        exact hdisj a ha (by simp only [List.map_cons, List.mem_cons]; right; exact hmem)
      · exact hnd.1
    have hrec := ih (fun q2 hq2 => hv q2 (List.mem_cons_of_mem q hq2)) hnd.2
      (acc ++ [(q.id, (i : Int) + 1)]) hdisj2
    simp only [scoreQuestions, hA, _option_to_score, hI]
    rw [hins, hrec]
    simp [hscore]

lemma pillarAverage_map (answers : String → Option String) (p : Pillar)
    (hne : p.questions ≠ []) :
    pillarAverage (p.questions.map (fun q => (q.id, spec_question_score answers q))) =
      .ok (((p.questions.map (spec_question_score answers)).sum : ℚ) /
        (p.questions.length : ℚ)) := by
  unfold pillarAverage
  rw [if_neg (by simp [hne])]
  simp only [List.map_map, List.length_map, Int.cast_list_sum]
  rfl

lemma scorePillars_eq_foldl (answers : String → Option String) :
    ∀ pillars : List Pillar,
      (∀ p ∈ pillars, p.questions ≠ []) →
      (∀ p ∈ pillars, (p.questions.map Question.id).Nodup) →
      (∀ p ∈ pillars, ∀ q ∈ p.questions, ∃ o ∈ q.options, answers q.id = some o) →
      ∀ acc, scorePillars answers pillars acc =
        .ok (pillars.foldl (fun a p => dictInsert p.id (spec_pillar_score answers p) a) acc) := by
  intro pillars
  induction pillars with
  | nil => intro _ _ _ acc; rfl
  | cons p rest ih =>
    intro h1 h2 hv acc
    have hq := scoreQuestions_eq_map answers p.questions
      (hv p (List.mem_cons_self p rest)) (h2 p (List.mem_cons_self p rest)) [] (by simp)
    simp only [List.nil_append] at hq
    have havg := pillarAverage_map answers p (h1 p (List.mem_cons_self p rest))
    simp only [scorePillars, hq, havg, List.foldl_cons]
    have hmk : PillarScore.mk p.id
        (((p.questions.map (spec_question_score answers)).sum : ℚ) / (p.questions.length : ℚ))
        (p.questions.map (fun q => (q.id, spec_question_score answers q))) =
        spec_pillar_score answers p := rfl
    rw [hmk]
    exact ih (fun p2 hp2 => h1 p2 (List.mem_cons_of_mem p hp2))
      (fun p2 hp2 => h2 p2 (List.mem_cons_of_mem p hp2))
      (fun p2 hp2 => hv p2 (List.mem_cons_of_mem p hp2)) _

lemma foldl_dictInsert_keys_preserved (f : Pillar → PillarScore) :
    ∀ (ps : List Pillar) (acc : List (String × PillarScore)) (a : String),
      a ∈ acc.map Prod.fst →
      a ∈ (ps.foldl (fun acc2 p => dictInsert p.id (f p) acc2) acc).map Prod.fst := by
  intro ps
  induction ps with
  | nil => intro acc a h; simpa using h
  | cons p rest ih =>
    intro acc a h
    simp only [List.foldl_cons]
    exact ih _ a (mem_keys_dictInsert _ _ _ a h)

lemma foldl_dictInsert_covers (f : Pillar → PillarScore) :
    ∀ (ps : List Pillar) (acc : List (String × PillarScore)) (p : Pillar), p ∈ ps →
      p.id ∈ (ps.foldl (fun acc2 p2 => dictInsert p2.id (f p2) acc2) acc).map Prod.fst := by
  intro ps
  induction ps with
  | nil => intro acc p h; simp at h
  | cons q rest ih =>
    intro acc p hp
    simp only [List.foldl_cons]
    rcases List.mem_cons.mp hp with rfl | hm
    · exact foldl_dictInsert_keys_preserved f rest _ p.id (self_mem_keys_dictInsert _ _ _)
    · exact ih _ p hm

lemma foldl_dictInsert_entries (f : Pillar → PillarScore) :
    ∀ (ps : List Pillar) (acc : List (String × PillarScore)) (e : String × PillarScore),
      e ∈ ps.foldl (fun acc2 p => dictInsert p.id (f p) acc2) acc →
      e ∈ acc ∨ ∃ p ∈ ps, e = (p.id, f p) := by
  intro ps
  induction ps with
  | nil => intro acc e h; left; simpa using h
  | cons p rest ih =>
    intro acc e h
    simp only [List.foldl_cons] at h
    rcases ih _ e h with hacc | ⟨p2, hp2, rfl⟩
    · rcases mem_dictInsert _ _ _ e hacc with hacc2 | rfl
      · left; exact hacc2
      · right; exact ⟨p, List.mem_cons_self p rest, rfl⟩
    · right; exact ⟨p2, List.mem_cons_of_mem p hp2, rfl⟩

lemma sum_bounds_int :
    ∀ l : List Int, (∀ x ∈ l, 1 ≤ x ∧ x ≤ 5) →
      (l.length : Int) ≤ l.sum ∧ l.sum ≤ 5 * l.length := by
  intro l
  induction l with
  | nil => intro _; simp
  | cons x xs ih =>
    intro h
    obtain ⟨h1, h2⟩ := h x (List.mem_cons_self x xs)
    obtain ⟨ih1, ih2⟩ := ih (fun y hy => h y (List.mem_cons_of_mem x hy))
    constructor
    · simp only [List.sum_cons, List.length_cons]
      push_cast
      omega
    · simp only [List.sum_cons, List.length_cons]
      push_cast
      omega

lemma mean_bounds (l : List Int) (hne : l ≠ []) (hb : ∀ x ∈ l, 1 ≤ x ∧ x ≤ 5) :
    1 ≤ ((l.sum : ℚ) / (l.length : ℚ)) ∧ ((l.sum : ℚ) / (l.length : ℚ)) ≤ 5 := by
  obtain ⟨hs1, hs2⟩ := sum_bounds_int l hb
  have hlen : 0 < l.length := List.length_pos.mpr hne
  have hlenQ : 0 < (l.length : ℚ) := by exact_mod_cast hlen
  constructor
  · rw [le_div_iff₀ hlenQ]
    have hc : ((l.length : Int) : ℚ) ≤ ((l.sum : Int) : ℚ) := by exact_mod_cast hs1
    push_cast at hc ⊢
    linarith
  · rw [div_le_iff₀ hlenQ]
    have hc : ((l.sum : Int) : ℚ) ≤ (((5 * l.length : Int) : ℚ)) := by exact_mod_cast hs2
    push_cast at hc ⊢
    linarith

lemma spec_question_score_bounds (answers : String → Option String) (q : Question)
    (h : ∃ o ∈ q.options, answers q.id = some o) (h5 : q.options.length ≤ 5) :
    1 ≤ spec_question_score answers q ∧ spec_question_score answers q ≤ 5 := by
  obtain ⟨o, ho, hA⟩ := h
  obtain ⟨i, hI, hlen⟩ := pyIndex_of_mem o q.options ho
  simp only [spec_question_score, hA, hI, Option.getD_some]
  omega

/-- C2 (amended: additionally, within each pillar the question ids are
pairwise distinct, and every option list has at most five entries —
without these the dict keyed by question id collapses duplicate ids and
an option list longer than five scores above 5): under the claim's
hypotheses `score_responses` returns exactly the spec-prescribed mapping,
in which each question scores the zero-based index of its chosen option
plus one, every pillar id of the input is a key, every entry is the
prescribed `PillarScore` of one of the pillars, and each average is the
per-question sum divided by the question count, lying in `[1, 5]`. -/
theorem C2_scoring_values (answers : String → Option String) (pillars : List Pillar)
    (h1 : ∀ p ∈ pillars, p.questions ≠ [])
    (h2 : ∀ p ∈ pillars, (p.questions.map Question.id).Nodup)
    (h3 : ∀ p ∈ pillars, ∀ q ∈ p.questions, q.options.length ≤ 5)
    (h4 : ∀ p ∈ pillars, ∀ q ∈ p.questions, ∃ o ∈ q.options, answers q.id = some o) :
    score_responses answers pillars = .ok (spec_results answers pillars) ∧
    (∀ p ∈ pillars, p.id ∈ (spec_results answers pillars).map Prod.fst) ∧
    (∀ e ∈ spec_results answers pillars, ∃ p ∈ pillars, e = (p.id, spec_pillar_score answers p)) ∧
    (∀ p ∈ pillars,
      (spec_pillar_score answers p).responses =
        p.questions.map (fun q => (q.id, spec_question_score answers q)) ∧
      (spec_pillar_score answers p).average =
        ((p.questions.map (spec_question_score answers)).sum : ℚ) /
          (p.questions.length : ℚ) ∧
      1 ≤ (spec_pillar_score answers p).average ∧
      (spec_pillar_score answers p).average ≤ 5) := by
  refine ⟨?_, ?_, ?_, ?_⟩
  · unfold score_responses spec_results
    exact scorePillars_eq_foldl answers pillars h1 h2 h4 []
  · intro p hp
    exact foldl_dictInsert_covers (spec_pillar_score answers) pillars [] p hp
  · intro e he
    rcases foldl_dictInsert_entries (spec_pillar_score answers) pillars [] e he with h | h
    · simp at h
    · exact h
  · intro p hp
    refine ⟨rfl, rfl, ?_⟩
    have hb : ∀ x ∈ p.questions.map (spec_question_score answers), 1 ≤ x ∧ x ≤ 5 := by
      intro x hx
      simp only [List.mem_map] at hx
      obtain ⟨q, hq, rfl⟩ := hx
      exact spec_question_score_bounds answers q (h4 p hp q hq) (h3 p hp q hq)
    have hne : p.questions.map (spec_question_score answers) ≠ [] := by
      simp [h1 p hp]
    have hmean := mean_bounds _ hne hb
    simp only [List.length_map] at hmean
    exact hmean

/-- Witness for C2 on a one-pillar catalog whose single two-option
question is answered with the second option. -/
theorem C2_scoring_values_witness :
    (∀ p ∈ [Pillar.mk "p" "P" "d" [Question.mk "q" "Q" ["a", "b"]]], p.questions ≠ []) ∧
    (∀ p ∈ [Pillar.mk "p" "P" "d" [Question.mk "q" "Q" ["a", "b"]]],
      (p.questions.map Question.id).Nodup) ∧
    (∀ p ∈ [Pillar.mk "p" "P" "d" [Question.mk "q" "Q" ["a", "b"]]],
      ∀ q ∈ p.questions, q.options.length ≤ 5) ∧
    (∀ p ∈ [Pillar.mk "p" "P" "d" [Question.mk "q" "Q" ["a", "b"]]],
      ∀ q ∈ p.questions, ∃ o ∈ q.options,
        (fun s => if s = "q" then some "b" else none) q.id = some o) ∧
    (score_responses (fun s => if s = "q" then some "b" else none)
        [Pillar.mk "p" "P" "d" [Question.mk "q" "Q" ["a", "b"]]] =
      .ok (spec_results (fun s => if s = "q" then some "b" else none)
        [Pillar.mk "p" "P" "d" [Question.mk "q" "Q" ["a", "b"]]])) :=
  ⟨by decide, by decide, by decide, by decide,
   (C2_scoring_values _ _ (by decide) (by decide) (by decide) (by decide)).1⟩

/-- Counterexample to C2 as stated: the pillar `p1` repeats the question
id `q` with differently ordered six-entry option lists, and the pillar
`p2` has a six-option question.  All of the claim's stated hypotheses
hold (non-empty question lists; the answer maps each question id to one
of that question's options), yet `p1`'s returned average is `1`, not the
claimed `(6 + 1) / 2`, and `p2`'s returned average is `6`, outside
`[1, 5]`. -/
theorem C2_counterexample :
    score_responses
        (fun s => if s = "q" then some "f" else if s = "r" then some "f" else none)
        [Pillar.mk "p1" "P1" "d"
          [Question.mk "q" "Q1" ["a", "b", "c", "d", "e", "f"],
           Question.mk "q" "Q2" ["f", "a", "b", "c", "d", "e"]],
         Pillar.mk "p2" "P2" "d"
          [Question.mk "r" "Q3" ["a", "b", "c", "d", "e", "f"]]] =
      .ok [("p1", PillarScore.mk "p1" 1 [("q", 1)]),
           ("p2", PillarScore.mk "p2" 6 [("r", 6)])] ∧
    (1 : ℚ) ≠ (6 + 1) / 2 ∧
    ¬ ((6 : ℚ) ≤ 5) := by
  refine ⟨?_, by norm_num, by norm_num⟩
  simp +decide [score_responses, scorePillars, scoreQuestions, _option_to_score, pyIndex,
    dictInsert, pillarAverage]

lemma string_data_append (a b : String) : (a ++ b).data = a.data ++ b.data := rfl

lemma joinNl_cons_data (s : String) (l : List String) (h : l ≠ []) :
    (joinNl (s :: l)).data = s.data ++ '\n' :: (joinNl l).data := by
  cases l with
  | nil => exact absurd rfl h
  | cons y ys =>
    show ((s ++ "\n") ++ joinNl (y :: ys)).data = _
    simp [string_data_append]

lemma joinNl_append_data (l1 l2 : List String) (h1 : l1 ≠ []) (h2 : l2 ≠ []) :
    (joinNl (l1 ++ l2)).data = (joinNl l1).data ++ '\n' :: (joinNl l2).data := by
  induction l1 with
  | nil => exact absurd rfl h1
  | cons x xs ih =>
    cases xs with
    | nil =>
      rw [List.singleton_append, joinNl_cons_data x l2 h2]
      rfl
    | cons y ys =>
      have hys : (y :: ys) ++ l2 ≠ [] := by simp
      rw [List.cons_append, joinNl_cons_data x ((y :: ys) ++ l2) hys, ih (by simp),
        joinNl_cons_data x (y :: ys) (by simp)]
      simp [List.append_assoc]

lemma joinNl_sep_split (A B : List String) (hA : A ≠ []) :
    joinNl (A ++ "\n---\n" :: B) = joinNl (A ++ "" :: "---" :: "" :: B) := by
  apply String.ext
  cases B with
  | nil =>
    rw [joinNl_append_data A ["\n---\n"] hA (by simp),
      joinNl_append_data A ["", "---", ""] hA (by simp)]
    rfl
  | cons b bs =>
    rw [joinNl_append_data A ("\n---\n" :: b :: bs) hA (by simp),
      joinNl_append_data A ("" :: "---" :: "" :: b :: bs) hA (by simp),
      joinNl_cons_data "\n---\n" (b :: bs) (by simp),
      joinNl_cons_data "" ("---" :: "" :: b :: bs) (by simp),
      joinNl_cons_data "---" ("" :: b :: bs) (by simp),
      joinNl_cons_data "" (b :: bs) (by simp)]
    rfl

lemma infix_joinNl (s : String) (l : List String) (h : s ∈ l) :
    s.data <:+: (joinNl l).data := by
  induction l with
  | nil => simp at h
  | cons x xs ih =>
    cases xs with
    | nil =>
      simp at h
      subst h
      exact List.infix_rfl
    | cons y ys =>
      rcases List.mem_cons.mp h with rfl | hm
      · refine ⟨[], ("\n" ++ joinNl (y :: ys)).data, ?_⟩
        show [] ++ s.data ++ ("\n" ++ joinNl (y :: ys)).data =
          ((s ++ "\n") ++ joinNl (y :: ys)).data
        simp [string_data_append, List.append_assoc]
      · obtain ⟨pre, post, hpp⟩ := ih hm
        refine ⟨(x ++ "\n").data ++ pre, post, ?_⟩
        have hx : (joinNl (x :: y :: ys)).data = (x ++ "\n").data ++ (joinNl (y :: ys)).data :=
          string_data_append _ _
        rw [hx, ← hpp]
        simp [List.append_assoc]

lemma not_prefix_of_ne_at (p a b : List Char) (i : Nat)
    (hip : i < p.length) (hia : i < a.length) (hne : p[i] ≠ a[i]) :
    ¬ p <+: (a ++ b) := by
  intro hpre
  apply hne
  have hiab : i < (a ++ b).length := by simp; omega
  have e1 : p[i] = (a ++ b)[i] := hpre.getElem hip
  have e2 : (a ++ b)[i] = a[i] := List.getElem_append_left hia
  rw [e1, e2]

lemma vas_marker_not_prefix_append (pre s : String) (i : Nat)
    (h1 : i < vas_marker.data.length) (h2 : i < pre.data.length)
    (hne : vas_marker.data[i] ≠ pre.data[i]) :
    ¬ (vas_marker.data <+: (pre ++ s).data) := by
  rw [string_data_append]
  exact not_prefix_of_ne_at _ _ _ i h1 h2 hne

lemma no_marker_overall (s : String) :
    ¬ (vas_marker.data <+: ("**Overall score:** " ++ s).data) :=
  vas_marker_not_prefix_append _ s 2 (by decide) (by decide) (by decide)

lemma no_marker_maturity (s : String) :
    ¬ (vas_marker.data <+: ("**Maturity level:** " ++ s).data) :=
  vas_marker_not_prefix_append _ s 2 (by decide) (by decide) (by decide)

lemma no_marker_heading (s : String) :
    ¬ (vas_marker.data <+: ("## " ++ s).data) :=
  vas_marker_not_prefix_append _ s 1 (by decide) (by decide) (by decide)

lemma no_marker_average (s : String) :
    ¬ (vas_marker.data <+: ("**Average score:** " ++ s).data) :=
  vas_marker_not_prefix_append _ s 2 (by decide) (by decide) (by decide)

lemma no_marker_bullet (t d : String) :
    ¬ (vas_marker.data <+: ("- **" ++ t ++ "** — " ++ d).data) := by
  have hsh : "- **" ++ t ++ "** — " ++ d = "- **" ++ (t ++ ("** — " ++ d)) := by
    rw [String.append_assoc, String.append_assoc]
  rw [hsh]
  exact vas_marker_not_prefix_append _ _ 0 (by decide) (by decide) (by decide)

lemma format_lines_ne_nil (p : Pillar) (sc : PillarScore) (ini : List Initiative) :
    _format_pillar_section_lines p sc ini ≠ [] := by
  unfold _format_pillar_section_lines
  split_ifs <;> simp

lemma format_lines_no_marker (p : Pillar) (sc : PillarScore) (ini : List Initiative)
    (line : String) (h : line ∈ _format_pillar_section_lines p sc ini) :
    ¬ (vas_marker.data <+: line.data) := by
  unfold _format_pillar_section_lines at h
  split_ifs at h with hie
  · simp at h
    rcases h with rfl | rfl
    · exact no_marker_heading _
    · exact no_marker_average _
  · simp at h
    rcases h with rfl | rfl | rfl | ⟨item, -, hline⟩
    · exact no_marker_heading _
    · exact no_marker_average _
    · decide
    · subst hline
      exact no_marker_bullet _ _

lemma reportPillarSections_to_lines (pillar_scores : String → Option PillarScore)
    (initiatives : String → Option (List Initiative)) :
    ∀ (pillars : List Pillar) (secs : List String),
      reportPillarSections pillar_scores initiatives pillars = .ok secs →
      ∃ plines, pillarLinesList pillar_scores initiatives pillars = .ok plines ∧
        (∀ S : List String, S ≠ [] → joinNl (secs ++ S) = joinNl (plines ++ S)) ∧
        (∀ line ∈ plines, ¬ (vas_marker.data <+: line.data)) := by
  intro pillars
  induction pillars with
  | nil =>
    intro secs h
    injection h with h
    subst h
    exact ⟨[], rfl, fun S _ => rfl, by simp⟩
  | cons p rest ih =>
    intro secs h
    cases hps : pillar_scores p.id with
    | none =>
      simp only [reportPillarSections, hps] at h
      exact absurd h (by simp)
    | some sc =>
      cases hrest : reportPillarSections pillar_scores initiatives rest with
      | error e =>
        simp only [reportPillarSections, hps, hrest] at h
        exact absurd h (by simp)
      | ok tail =>
        simp only [reportPillarSections, hps, hrest] at h
        injection h with h
        subst h
        obtain ⟨plines, hpl, hjoin, hmarker⟩ := ih tail hrest
        set fl := _format_pillar_section_lines p sc ((initiatives p.id).getD []) with hfl
        refine ⟨fl ++ [""] ++ plines, ?_, ?_, ?_⟩
        · simp only [pillarLinesList, hps, hpl]
        · intro S hS
          have hTS : tail ++ S ≠ [] := fun hc => hS (List.append_eq_nil.mp hc).2
          have hPS : plines ++ S ≠ [] := fun hc => hS (List.append_eq_nil.mp hc).2
          apply String.ext
          have hL : ((_format_pillar_section p sc ((initiatives p.id).getD []) ::
              "" :: tail) ++ S) = _format_pillar_section p sc ((initiatives p.id).getD []) ::
              "" :: (tail ++ S) := by simp
          rw [hL, joinNl_cons_data _ _ (by simp),
            joinNl_cons_data "" (tail ++ S) hTS]
          have hR : ((fl ++ [""] ++ plines) ++ S) = fl ++ ("" :: (plines ++ S)) := by
            simp
          rw [hR, joinNl_append_data fl ("" :: (plines ++ S)) (format_lines_ne_nil _ _ _)
            (by simp), joinNl_cons_data "" (plines ++ S) hPS]
          have hsec : (_format_pillar_section p sc ((initiatives p.id).getD [])).data =
              (joinNl fl).data := rfl
          rw [hsec, congrArg String.data (hjoin S hS)]
        · intro line hline
          rw [List.append_assoc] at hline
          rcases List.mem_append.mp hline with hfl2 | hrest2
          · exact format_lines_no_marker _ _ _ line hfl2
          · rcases List.mem_append.mp hrest2 with hone | hpl2
            · have hempty : line = "" := by simpa using hone
              subst hempty
              decide
            · exact hmarker line hpl2

lemma report_glue (H secs plines : List String) (hH : H ≠ [])
    (hjoin : ∀ S : List String, S ≠ [] → joinNl (secs ++ S) = joinNl (plines ++ S)) :
    joinNl (H ++ ["\n---\n"] ++ secs ++ ["\n---\n", report_disclaimer]) =
      joinNl (H ++ ["", "---", ""] ++ plines ++ ["", "---", "", report_disclaimer]) := by
  have step1 : H ++ ["\n---\n"] ++ secs ++ ["\n---\n", report_disclaimer] =
      (H ++ "\n---\n" :: secs) ++ "\n---\n" :: [report_disclaimer] := by simp
  have step2 : (H ++ "\n---\n" :: secs) ++ "" :: "---" :: "" :: [report_disclaimer] =
      H ++ "\n---\n" :: (secs ++ ["", "---", "", report_disclaimer]) := by simp
  have step3 : H ++ "" :: "---" :: "" :: (secs ++ ["", "---", "", report_disclaimer]) =
      (H ++ ["", "---", ""]) ++ (secs ++ ["", "---", "", report_disclaimer]) := by simp
  rw [step1, joinNl_sep_split (H ++ "\n---\n" :: secs) [report_disclaimer] (by simp [hH]),
    step2, joinNl_sep_split H (secs ++ ["", "---", "", report_disclaimer]) hH, step3]
  have key : joinNl ((H ++ ["", "---", ""]) ++ (secs ++ ["", "---", "", report_disclaimer])) =
      joinNl ((H ++ ["", "---", ""]) ++ (plines ++ ["", "---", "", report_disclaimer])) := by
    apply String.ext
    rw [joinNl_append_data (H ++ ["", "---", ""]) (secs ++ ["", "---", "", report_disclaimer])
        (by simp [hH]) (by simp),
      joinNl_append_data (H ++ ["", "---", ""]) (plines ++ ["", "---", "", report_disclaimer])
        (by simp [hH]) (by simp),
      congrArg String.data (hjoin ["", "---", "", report_disclaimer] (by simp))]
  rw [key]
  congr 1
  simp

/-- C7: whenever `build_markdown_report` returns a text, that text is the
newline-join of the report's line list; the line carrying the overall
score rendered to one decimal place and the line carrying the maturity
level verbatim are among those lines (hence substrings of the text); when
a value-at-stake is supplied its formatted currency line is among the
lines (hence a substring of the text); and when none is supplied no
emitted line carries the value-at-stake label — the line is omitted
entirely. -/
theorem C7_report_contents (pillars : List Pillar)
    (pillar_scores : String → Option PillarScore) (maturity_level : String)
    (overall_score : ℚ) (value_at_stake : Option ℚ)
    (initiatives : String → Option (List Initiative)) (text : String)
    (h : build_markdown_report pillars pillar_scores maturity_level overall_score
      value_at_stake initiatives = .ok text) :
    (∃ ls, report_lines pillars pillar_scores maturity_level overall_score
      value_at_stake initiatives = .ok ls) ∧
    text = joinNl (linesOf (report_lines pillars pillar_scores maturity_level
      overall_score value_at_stake initiatives)) ∧
    ("**Overall score:** " ++ fmt1 overall_score) ∈
      linesOf (report_lines pillars pillar_scores maturity_level overall_score
        value_at_stake initiatives) ∧
    ("**Overall score:** " ++ fmt1 overall_score).data <:+: text.data ∧
    ("**Maturity level:** " ++ maturity_level) ∈
      linesOf (report_lines pillars pillar_scores maturity_level overall_score
        value_at_stake initiatives) ∧
    ("**Maturity level:** " ++ maturity_level).data <:+: text.data ∧
    (value_at_stake.isSome = true →
      vas_lineOf value_at_stake ∈
        linesOf (report_lines pillars pillar_scores maturity_level overall_score
          value_at_stake initiatives) ∧
      (vas_lineOf value_at_stake).data <:+: text.data) ∧
    (value_at_stake = none →
      ∀ line ∈ linesOf (report_lines pillars pillar_scores maturity_level
        overall_score value_at_stake initiatives),
        ¬ (vas_marker.data <+: line.data)) := by
  cases hS : reportPillarSections pillar_scores initiatives pillars with
  | error e =>
    exfalso
    cases value_at_stake <;> simp only [build_markdown_report, hS] at h <;>
      exact absurd h (by simp)
  | ok secs =>
    obtain ⟨plines, hpl, hjoin, hmarker⟩ :=
      reportPillarSections_to_lines pillar_scores initiatives pillars secs hS
    cases value_at_stake with
    | none =>
      simp only [build_markdown_report, hS] at h
      injection h with htext
      subst htext
      have hrl : report_lines pillars pillar_scores maturity_level overall_score none
          initiatives = .ok (["# Value-Centered Maturity Assessment", "",
            "**Overall score:** " ++ fmt1 overall_score,
            "**Maturity level:** " ++ maturity_level] ++ ["", "---", ""] ++ plines ++
            ["", "---", "", report_disclaimer]) := by
        simp only [report_lines, hpl]
      have hlines : linesOf (report_lines pillars pillar_scores maturity_level
          overall_score none initiatives) =
          ["# Value-Centered Maturity Assessment", "",
            "**Overall score:** " ++ fmt1 overall_score,
            "**Maturity level:** " ++ maturity_level] ++ ["", "---", ""] ++ plines ++
            ["", "---", "", report_disclaimer] := by
        rw [hrl]; rfl
      have hglue := report_glue ["# Value-Centered Maturity Assessment", "",
        "**Overall score:** " ++ fmt1 overall_score,
        "**Maturity level:** " ++ maturity_level] secs plines (by simp) hjoin
      refine ⟨⟨_, hrl⟩, ?_, ?_, ?_, ?_, ?_, ?_, ?_⟩
      · rw [hlines, ← hglue]
        congr 1
      · rw [hlines]; simp
      · exact infix_joinNl _ _ (by simp)
      · rw [hlines]; simp
      · exact infix_joinNl _ _ (by simp)
      · intro hcontra; simp at hcontra
      · intro _ line hline
        rw [hlines] at hline
        simp only [List.mem_append] at hline
        rcases hline with ((h1 | h2) | h3) | h4
        · simp only [List.mem_cons, List.not_mem_nil, or_false] at h1
          rcases h1 with rfl | rfl | rfl | rfl
          · decide
          · decide
          · exact no_marker_overall _
          · exact no_marker_maturity _
        · simp only [List.mem_cons, List.not_mem_nil, or_false] at h2
          rcases h2 with rfl | rfl | rfl <;> decide
        · exact hmarker line h3
        · simp only [List.mem_cons, List.not_mem_nil, or_false] at h4
          rcases h4 with rfl | rfl | rfl | rfl <;> decide
    | some v =>
      simp only [build_markdown_report, hS] at h
      injection h with htext
      subst htext
      have hrl : report_lines pillars pillar_scores maturity_level overall_score (some v)
          initiatives = .ok ((["# Value-Centered Maturity Assessment", "",
            "**Overall score:** " ++ fmt1 overall_score,
            "**Maturity level:** " ++ maturity_level] ++ [vas_line v]) ++ ["", "---", ""] ++
            plines ++ ["", "---", "", report_disclaimer]) := by
        simp only [report_lines, hpl]
      have hlines : linesOf (report_lines pillars pillar_scores maturity_level
          overall_score (some v) initiatives) =
          (["# Value-Centered Maturity Assessment", "",
            "**Overall score:** " ++ fmt1 overall_score,
            "**Maturity level:** " ++ maturity_level] ++ [vas_line v]) ++ ["", "---", ""] ++
            plines ++ ["", "---", "", report_disclaimer] := by
        rw [hrl]; rfl
      have hglue := report_glue (["# Value-Centered Maturity Assessment", "",
        "**Overall score:** " ++ fmt1 overall_score,
        "**Maturity level:** " ++ maturity_level] ++ [vas_line v]) secs plines (by simp) hjoin
      refine ⟨⟨_, hrl⟩, ?_, ?_, ?_, ?_, ?_, ?_, ?_⟩
      · rw [hlines, ← hglue]
        congr 1
      · rw [hlines]; simp
      · exact infix_joinNl _ _ (by simp)
      · rw [hlines]; simp
      · exact infix_joinNl _ _ (by simp)
      · intro _
        constructor
        · rw [hlines]
          show vas_line v ∈ _
          simp
        · show (vas_line v).data <:+: _
          exact infix_joinNl _ _ (by simp)
      · intro hcontra; exact absurd hcontra (by simp)

/-- Witness for C7 on the empty catalog with maturity level `"Leading"`,
overall score `4` and a supplied value-at-stake of `1234567`. -/
theorem C7_report_contents_witness :
    build_markdown_report [] (fun _ => none) "Leading" 4 (some 1234567) (fun _ => none) =
      .ok ((build_markdown_report [] (fun _ => none) "Leading" 4 (some 1234567)
        (fun _ => none)).toOption.getD "") ∧
    ((∃ ls, report_lines [] (fun _ => none) "Leading" 4 (some 1234567) (fun _ => none) =
      .ok ls) ∧
    (build_markdown_report [] (fun _ => none) "Leading" 4 (some 1234567)
        (fun _ => none)).toOption.getD "" =
      joinNl (linesOf (report_lines [] (fun _ => none) "Leading" 4 (some 1234567)
        (fun _ => none))) ∧
    ("**Overall score:** " ++ fmt1 4) ∈
      linesOf (report_lines [] (fun _ => none) "Leading" 4 (some 1234567)
        (fun _ => none)) ∧
    ("**Overall score:** " ++ fmt1 4).data <:+:
      ((build_markdown_report [] (fun _ => none) "Leading" 4 (some 1234567)
        (fun _ => none)).toOption.getD "").data ∧
    ("**Maturity level:** " ++ "Leading") ∈
      linesOf (report_lines [] (fun _ => none) "Leading" 4 (some 1234567)
        (fun _ => none)) ∧
    ("**Maturity level:** " ++ "Leading").data <:+:
      ((build_markdown_report [] (fun _ => none) "Leading" 4 (some 1234567)
        (fun _ => none)).toOption.getD "").data ∧
    ((some (1234567 : ℚ)).isSome = true →
      vas_lineOf (some 1234567) ∈
        linesOf (report_lines [] (fun _ => none) "Leading" 4 (some 1234567)
          (fun _ => none)) ∧
      (vas_lineOf (some 1234567)).data <:+:
        ((build_markdown_report [] (fun _ => none) "Leading" 4 (some 1234567)
          (fun _ => none)).toOption.getD "").data) ∧
    ((some (1234567 : ℚ)) = none →
      ∀ line ∈ linesOf (report_lines [] (fun _ => none) "Leading" 4 (some 1234567)
        (fun _ => none)), ¬ (vas_marker.data <+: line.data))) :=
  ⟨rfl, C7_report_contents [] (fun _ => none) "Leading" 4 (some 1234567)
    (fun _ => none) _ rfl⟩

lemma reportPillarSections_ok_of_scores (pillar_scores : String → Option PillarScore)
    (initiatives : String → Option (List Initiative)) :
    ∀ pillars : List Pillar, (∀ p ∈ pillars, (pillar_scores p.id).isSome = true) →
      ∃ secs, reportPillarSections pillar_scores initiatives pillars = .ok secs := by
  intro pillars
  induction pillars with
  | nil => intro _; exact ⟨[], rfl⟩
  | cons p rest ih =>
    intro hall
    obtain ⟨sc, hsc⟩ := Option.isSome_iff_exists.mp (hall p (List.mem_cons_self p rest))
    obtain ⟨tail, htail⟩ := ih (fun p2 hp2 => hall p2 (List.mem_cons_of_mem p hp2))
    refine ⟨_format_pillar_section p sc ((initiatives p.id).getD []) :: "" :: tail, ?_⟩
    simp only [reportPillarSections, hsc, htail]

lemma reportPillarSections_error_cases (pillar_scores : String → Option PillarScore)
    (initiatives : String → Option (List Initiative)) :
    ∀ (pillars : List Pillar) (e : PyError),
      reportPillarSections pillar_scores initiatives pillars = .error e →
      ∃ p ∈ pillars, pillar_scores p.id = none ∧ e = .keyError p.id := by
  intro pillars
  induction pillars with
  | nil =>
    intro e h
    simp only [reportPillarSections] at h
    exact absurd h (by simp)
  | cons p rest ih =>
    intro e h
    cases hps : pillar_scores p.id with
    | none =>
      simp only [reportPillarSections, hps] at h
      injection h with h2
      exact ⟨p, List.mem_cons_self p rest, hps, h2.symm⟩
    | some sc =>
      cases hrest : reportPillarSections pillar_scores initiatives rest with
      | error e0 =>
        simp only [reportPillarSections, hps, hrest] at h
        injection h with h2
        subst h2
        obtain ⟨p2, hp2, hcase⟩ := ih e0 hrest
        exact ⟨p2, List.mem_cons_of_mem p hp2, hcase⟩
      | ok tail =>
        simp only [reportPillarSections, hps, hrest] at h
        exact absurd h (by simp)

lemma reportPillarSections_error_of_missing (pillar_scores : String → Option PillarScore)
    (initiatives : String → Option (List Initiative)) :
    ∀ pillars : List Pillar,
      (¬ ∀ p ∈ pillars, (pillar_scores p.id).isSome = true) →
      ∃ e, reportPillarSections pillar_scores initiatives pillars = .error e := by
  intro pillars
  induction pillars with
  | nil => intro hv; exact absurd (by simp) hv
  | cons p rest ih =>
    intro hv
    cases hps : pillar_scores p.id with
    | none => exact ⟨.keyError p.id, by simp only [reportPillarSections, hps]⟩
    | some sc =>
      have hrest : ¬ ∀ p2 ∈ rest, (pillar_scores p2.id).isSome = true := by
        intro hall
        apply hv
        intro p2 hp2
        rcases List.mem_cons.mp hp2 with rfl | hm
        · simp [hps]
        · exact hall p2 hm
      obtain ⟨e, he⟩ := ih hrest
      exact ⟨e, by simp only [reportPillarSections, hps, he]⟩

/-- C8 (amended: only the `pillar_scores` lookup can fail — a missing
`initiatives` entry is absorbed by `initiatives.get(pillar.id, [])` and
yields an empty recommendation list for that pillar, not an error):
`build_markdown_report` returns normally exactly when `pillar_scores` has
an entry for every pillar in `pillars`, regardless of `initiatives` — so
a pillar id present in `pillars` but absent from `pillar_scores` makes it
fail — and any error it raises is the propagated `KeyError` of such a
missing pillar id. -/
theorem C8_report_error_conditions (pillars : List Pillar)
    (pillar_scores : String → Option PillarScore) (maturity_level : String)
    (overall_score : ℚ) (value_at_stake : Option ℚ)
    (initiatives : String → Option (List Initiative)) :
    ((build_markdown_report pillars pillar_scores maturity_level overall_score
        value_at_stake initiatives).isOk = true ↔
      ∀ p ∈ pillars, (pillar_scores p.id).isSome = true) ∧
    (∀ e, build_markdown_report pillars pillar_scores maturity_level overall_score
        value_at_stake initiatives = .error e →
      ∃ p ∈ pillars, pillar_scores p.id = none ∧ e = .keyError p.id) := by
  constructor
  · constructor
    · intro hok
      by_contra hv
      obtain ⟨e, he⟩ :=
        reportPillarSections_error_of_missing pillar_scores initiatives pillars hv
      cases value_at_stake <;> simp only [build_markdown_report, he] at hok <;>
        simp [Except.isOk, Except.toBool] at hok
    · intro hall
      obtain ⟨secs, hsecs⟩ :=
        reportPillarSections_ok_of_scores pillar_scores initiatives pillars hall
      cases value_at_stake <;>
        simp only [build_markdown_report, hsecs, Except.isOk, Except.toBool]
  · intro e he
    cases hS : reportPillarSections pillar_scores initiatives pillars with
    | error e0 =>
      have he2 : e0 = e := by
        cases value_at_stake with
        | none =>
          simp only [build_markdown_report, hS] at he
          injection he
        | some v =>
          simp only [build_markdown_report, hS] at he
          injection he
      subst he2
      exact reportPillarSections_error_cases pillar_scores initiatives pillars e0 hS
    | ok secs =>
      exfalso
      cases value_at_stake <;> simp only [build_markdown_report, hS] at he <;>
        exact absurd he (by simp)

/-- Witness for C8: with a score entry available for the single pillar,
the report builds normally even though `initiatives` has no entries. -/
theorem C8_report_error_conditions_witness :
    (∀ p ∈ [Pillar.mk "p" "P" "d" []],
      (((fun _ => some (PillarScore.mk "p" 1 [])) : String → Option PillarScore)
        p.id).isSome = true) ∧
    (build_markdown_report [Pillar.mk "p" "P" "d" []]
      (fun _ => some (PillarScore.mk "p" 1 [])) "Nascent" 1 none
      (fun _ => none)).isOk = true :=
  ⟨by decide,
   (C8_report_error_conditions [Pillar.mk "p" "P" "d" []]
     (fun _ => some (PillarScore.mk "p" 1 [])) "Nascent" 1 none
     (fun _ => none)).1.mpr (by decide)⟩

/-- Counterexample to C8 as stated: `initiatives` lacks an entry for the
pillar `"p"` present in `pillars`, yet `build_markdown_report` returns
normally — `initiatives.get(pillar.id, [])` defaults instead of raising a
lookup error. -/
theorem C8_counterexample :
    build_markdown_report [Pillar.mk "p" "P" "d" []]
        (fun _ => some (PillarScore.mk "p" 1 [("q", 1)])) "Nascent" 1 none
        (fun _ => none) =
      .ok ((build_markdown_report [Pillar.mk "p" "P" "d" []]
        (fun _ => some (PillarScore.mk "p" 1 [("q", 1)])) "Nascent" 1 none
        (fun _ => none)).toOption.getD "") ∧
    (fun _ => (none : Option (List Initiative))) "p" = none :=
  ⟨rfl, rfl⟩

end VCM
